import Mathlib

/-!
Verification of the go-bbs-api bulletin-board service.

Shallow embedding of the request-handling and persistence pipeline:
  - internal/models: the Post record,
  - internal/utils.Sanitize (html.EscapeString),
  - internal/repository.PostRepository (GetAll, Create over the sqlite
    posts table, modelled as a list of rows in rowid order),
  - internal/service.PostService (GetAllPosts, CreatePost),
  - internal/handler.PostHandler (HandlePosts and its method handlers),
  - internal/middleware.RateLimiterMiddleware with the token-bucket
    wiring from main (rate 2.0, capacity 2),
  - the earlier in-memory variant of the server (posts slice guarded by
    a RWMutex, appended to by handleCreatePost).
-/

set_option maxRecDepth 4000

/-- Post mirrors internal/models.Post: a single bulletin-board entry
with JSON fields id, title, content. -/
structure Post where
  id : String
  title : String
  content : String
deriving DecidableEq

/-- The double-quote character, written via its code point. -/
def quoteChar : Char := Char.ofNat 34

/-- The apostrophe character, written via its code point. -/
def aposChar : Char := Char.ofNat 39

/-- Check whether a character is one of the five characters that Go's
html.EscapeString rewrites. -/
def isSpecialChar (c : Char) : Bool :=
  c = '&' || c = '<' || c = '>' || c = quoteChar || c = aposChar

/-- Per-character action of Go's html.EscapeString, the body of
internal/utils.Sanitize: the five HTML-significant characters are
replaced by their escape sequences and every other character passes
through unchanged. -/
def escapeChar (c : Char) : List Char :=
  if c = '&' then "&amp;".data
  else if c = '<' then "&lt;".data
  else if c = '>' then "&gt;".data
  else if c = quoteChar then "&#34;".data
  else if c = aposChar then "&#39;".data
  else [c]

/-- Character-by-character escaping of a whole string, as the
single-pass strings.Replacer inside html.EscapeString performs. -/
def escapeList : List Char → List Char
  | [] => []
  | c :: cs => escapeChar c ++ escapeList cs

/-- Sanitize mirrors internal/utils.Sanitize, which returns
html.EscapeString(s): every HTML-significant character of the input is
replaced by its escape sequence. It is a pure total function. -/
def Sanitize (s : String) : String := String.mk (escapeList s.data)

theorem escapeChar_no_lt (c : Char) : '<' ∉ escapeChar c := by
  unfold escapeChar
  split
  · decide
  split
  · decide
  split
  · decide
  split
  · decide
  split
  · decide
  next h1 h2 h3 h4 h5 =>
    intro hmem
    rcases List.mem_singleton.mp hmem with h
    exact h2 h.symm

theorem escapeChar_no_gt (c : Char) : '>' ∉ escapeChar c := by
  unfold escapeChar
  split
  · decide
  split
  · decide
  split
  · decide
  split
  · decide
  split
  · decide
  next h1 h2 h3 h4 h5 =>
    intro hmem
    rcases List.mem_singleton.mp hmem with h
    exact h3 h.symm

theorem escapeChar_no_quote (c : Char) : quoteChar ∉ escapeChar c := by
  unfold escapeChar
  split
  · decide
  split
  · decide
  split
  · decide
  split
  · decide
  split
  · decide
  next h1 h2 h3 h4 h5 =>
    intro hmem
    rcases List.mem_singleton.mp hmem with h
    exact h4 h.symm

theorem escapeChar_no_apos (c : Char) : aposChar ∉ escapeChar c := by
  unfold escapeChar
  split
  · decide
  split
  · decide
  split
  · decide
  split
  · decide
  split
  · decide
  next h1 h2 h3 h4 h5 =>
    intro hmem
    rcases List.mem_singleton.mp hmem with h
    exact h5 h.symm

theorem escapeChar_count_amp (c : Char) :
    (escapeChar c).count '&' = if isSpecialChar c then 1 else 0 := by
  unfold escapeChar isSpecialChar
  split
  · next h => simp [h]
  split
  · next h1 h => simp [h1, h]
  split
  · next h1 h2 h => simp [h1, h2, h]
  split
  · next h1 h2 h3 h => simp [h1, h2, h3, h]
  split
  · next h1 h2 h3 h4 h => simp [h1, h2, h3, h4, h]
  next h1 h2 h3 h4 h5 =>
    simp [h1, h2, h3, h4, h5, List.count_singleton]

theorem escapeList_no_lt (l : List Char) : '<' ∉ escapeList l := by
  induction l with
  | nil => simp [escapeList]
  | cons c cs ih =>
    simp only [escapeList, List.mem_append]
    rintro (h | h)
    · exact escapeChar_no_lt c h
    · exact ih h

theorem escapeList_no_gt (l : List Char) : '>' ∉ escapeList l := by
  induction l with
  | nil => simp [escapeList]
  | cons c cs ih =>
    simp only [escapeList, List.mem_append]
    rintro (h | h)
    · exact escapeChar_no_gt c h
    · exact ih h

theorem escapeList_no_quote (l : List Char) : quoteChar ∉ escapeList l := by
  induction l with
  | nil => simp [escapeList]
  | cons c cs ih =>
    simp only [escapeList, List.mem_append]
    rintro (h | h)
    · exact escapeChar_no_quote c h
    · exact ih h

theorem escapeList_no_apos (l : List Char) : aposChar ∉ escapeList l := by
  induction l with
  | nil => simp [escapeList]
  | cons c cs ih =>
    simp only [escapeList, List.mem_append]
    rintro (h | h)
    · exact escapeChar_no_apos c h
    · exact ih h

theorem escapeList_count_amp (l : List Char) :
    (escapeList l).count '&' = l.countP isSpecialChar := by
  induction l with
  | nil => simp [escapeList]
  | cons c cs ih =>
    simp only [escapeList, List.count_append, List.countP_cons, ih,
      escapeChar_count_amp]
    by_cases h : isSpecialChar c <;> simp [h, Nat.add_comm]

/-- Modelled from the spec: the identifier generator is an external
primitive (google/uuid's uuid.New().String()) that "produces a globally
unique string identifier per created post". It is modelled as a
counter-indexed supply of pairwise-distinct non-empty strings; the
service draws the identifier at the state's current counter and bumps
the counter, so successive draws are always fresh, exactly the
uniqueness contract the primitive provides. -/
def genId (n : Nat) : String := String.mk ('u' :: List.replicate n 'x')

theorem genId_injective : ∀ a b : Nat, genId a = genId b → a = b := by
  intro a b h
  have hdata : 'u' :: List.replicate a 'x' = 'u' :: List.replicate b 'x' :=
    congrArg String.data h
  have hrep := List.cons_injective hdata
  simpa using congrArg List.length hrep

theorem genId_ne_empty (n : Nat) : genId n ≠ "" := by
  intro h
  have hdata : 'u' :: List.replicate n 'x' = ([] : List Char) := by
    simpa [genId] using congrArg String.data h
  exact List.cons_ne_nil _ _ hdata

/-- Storage-level failure. With the database modelled as a pure list of
rows, the only constraint the model can violate is the PRIMARY KEY on
id; driver-level I/O failures lie outside the pure model. -/
inductive StoreErr where
  | duplicateId
deriving DecidableEq

/-- GetAll mirrors PostRepository.GetAll: SELECT id, title, content
FROM posts ORDER BY rowid DESC. The table is modelled as the list of
rows in insertion (ascending rowid) order, so the query returns the
reverse; on a well-formed in-memory table the query itself cannot
fail. -/
def GetAll (rows : List Post) : Except StoreErr (List Post) :=
  Except.ok rows.reverse

/-- Create mirrors PostRepository.Create: INSERT INTO posts(id, title,
content) VALUES(?, ?, ?). The insert appends a row with the next rowid
and fails exactly when the PRIMARY KEY constraint on id is violated. -/
def Create (post : Post) (rows : List Post) : Except StoreErr (List Post) :=
  if rows.any (fun q => q.id = post.id) then Except.error StoreErr.duplicateId
  else Except.ok (rows ++ [post])

/-- Store operations recorded by the service layer, used to express
which requests reach the store at all. -/
inductive StoreOp where
  | opSelect
  | opInsert (p : Post)
deriving DecidableEq

/-- State threaded through the pipeline: the posts table in rowid
order, the identifier-supply counter, and the trace of store operations
issued so far. -/
structure ServerState where
  db : List Post
  nonce : Nat
  trace : List StoreOp
deriving DecidableEq

/-- The state of a freshly initialized store: empty table, no draws
from the identifier supply, no store operations issued. -/
def initialState : ServerState := { db := [], nonce := 0, trace := [] }

/-- Errors surfaced by the service layer to the handler. -/
inductive ServiceErr where
  | invalidPost
  | storage (e : StoreErr)
deriving DecidableEq

/-- GetAllPosts mirrors PostService.GetAllPosts, which delegates to the
repository's GetAll; issuing the query is recorded in the trace. -/
def GetAllPosts (st : ServerState) : Except StoreErr (List Post) × ServerState :=
  match GetAll st.db with
  | Except.ok ps =>
      (Except.ok ps, { st with trace := st.trace ++ [StoreOp.opSelect] })
  | Except.error e =>
      (Except.error e, { st with trace := st.trace ++ [StoreOp.opSelect] })

/-- CreatePost mirrors PostService.CreatePost: draw a fresh identifier
(uuid.New().String()), sanitize title and content, reject with
ErrInvalidPost when either sanitized field is empty, otherwise ask the
repository to insert the fully-formed post. -/
def CreatePost (title content : String) (st : ServerState) :
    Except ServiceErr Post × ServerState :=
  let post : Post := { id := genId st.nonce, title := Sanitize title,
                       content := Sanitize content }
  let st1 := { st with nonce := st.nonce + 1 }
  if post.title = "" ∨ post.content = "" then
    (Except.error ServiceErr.invalidPost, st1)
  else
    let st2 := { st1 with trace := st1.trace ++ [StoreOp.opInsert post] }
    match Create post st2.db with
    | Except.ok rows => (Except.ok post, { st2 with db := rows })
    | Except.error e => (Except.error (ServiceErr.storage e), st2)

/-- Result of decoding the request body of a POST. A body either fails
JSON decoding, or decodes into the handler's input struct; a decoded
body carries the title and content fields the struct captures and
possibly an id field that the struct has no slot for. -/
inductive Body where
  | malformed
  | ok (clientId : Option String) (title : String) (content : String)
deriving DecidableEq

/-- Extraction performed by json.NewDecoder(r.Body).Decode(&input) in
HandleCreatePost, whose input struct declares only Title and Content:
any decoded id field is dropped. -/
def decodeBody : Body → Option (String × String)
  | Body.malformed => none
  | Body.ok _ title content => some (title, content)

/-- An HTTP request to the /posts endpoint, reduced to the parts the
handler inspects: the method string and the decoded body. -/
structure Request where
  method : String
  body : Body
deriving DecidableEq

/-- An HTTP response, reduced to the parts the handlers produce:
status code and body text. -/
structure Response where
  status : Nat
  body : String
deriving DecidableEq

/-- Per-character escaping performed by encoding/json when writing a
string value (HTML escaping enabled, as json.NewEncoder defaults to):
quote, backslash and control characters get backslash escapes, and the
HTML-significant characters are written as unicode escapes. -/
def jsonEscapeChar (c : Char) : List Char :=
  if c = quoteChar then ['\\', quoteChar]
  else if c = '\\' then ['\\', '\\']
  else if c = '\n' then ['\\', 'n']
  else if c = '\r' then ['\\', 'r']
  else if c = '\t' then ['\\', 't']
  else if c = '<' then "\\u003c".data
  else if c = '>' then "\\u003e".data
  else if c = '&' then "\\u0026".data
  else [c]

/-- Escape each character of a string for a JSON string literal. -/
def jsonEscapeList : List Char → List Char
  | [] => []
  | c :: cs => jsonEscapeChar c ++ jsonEscapeList cs

/-- Quote a string as a JSON string literal. -/
def encodeStringJSON (s : String) : String :=
  String.singleton quoteChar ++ String.mk (jsonEscapeList s.data)
    ++ String.singleton quoteChar

/-- JSON object written by json.Encoder for one models.Post value: the
struct fields in declaration order with their json tags id, title,
content. -/
def encodePostJSON (p : Post) : String :=
  "\x7b" ++ encodeStringJSON "id" ++ ":" ++ encodeStringJSON p.id
    ++ "," ++ encodeStringJSON "title" ++ ":" ++ encodeStringJSON p.title
    ++ "," ++ encodeStringJSON "content" ++ ":" ++ encodeStringJSON p.content
    ++ "\x7d"

/-- JSON array written by json.Encoder for a non-nil []models.Post
slice; the empty slice made by make([]models.Post, 0) encodes as []. -/
def encodePostsJSON (ps : List Post) : String :=
  "[" ++ String.intercalate "," (ps.map encodePostJSON) ++ "]"

/-- Body written by http.Error for a malformed request body. -/
def invalidBodyMsg : String := "\x7b\"error\": \"Invalid request body\"\x7d\n"

/-- Body written by http.Error for any error surfaced by the service. -/
def internalErrorMsg : String := "\x7b\"error\": \"Internal server error\"\x7d\n"

/-- Body written by http.Error for an unsupported method. -/
def methodNotAllowedMsg : String := "\x7b\"error\": \"Method not allowed\"\x7d\n"

/-- Body written by http.Error when the rate limiter rejects. -/
def tooManyRequestsMsg : String :=
  "\x7b\"error\": \"Too many requests. Please try again later.\"\x7d\n"

/-- HandleGetPosts mirrors PostHandler.HandleGetPosts: fetch all posts
through the service and encode them as a JSON array (json.Encoder adds
a trailing newline); any service error yields a 500 JSON error. -/
def HandleGetPosts (st : ServerState) : Response × ServerState :=
  match GetAllPosts st with
  | (Except.ok posts, st1) =>
      ({ status := 200, body := encodePostsJSON posts ++ "\n" }, st1)
  | (Except.error _, st1) =>
      ({ status := 500, body := internalErrorMsg }, st1)

/-- HandleCreatePost mirrors PostHandler.HandleCreatePost: decode the
body into the Title/Content input struct (400 on decode failure), call
the service, and answer 201 with the created post; every service
error, ErrInvalidPost included, is answered with the same 500 JSON
error. -/
def HandleCreatePost (b : Body) (st : ServerState) : Response × ServerState :=
  match decodeBody b with
  | none => ({ status := 400, body := invalidBodyMsg }, st)
  | some tc =>
      match CreatePost tc.1 tc.2 st with
      | (Except.ok post, st1) =>
          ({ status := 201, body := encodePostJSON post ++ "\n" }, st1)
      | (Except.error _, st1) =>
          ({ status := 500, body := internalErrorMsg }, st1)

/-- HandlePosts mirrors PostHandler.HandlePosts: after the CORS
headers, OPTIONS is answered 200 with an empty body before anything
else runs; GET and POST dispatch to their handlers; any other method is
answered 405 with a JSON error. -/
def HandlePosts (req : Request) (st : ServerState) : Response × ServerState :=
  if req.method = "OPTIONS" then ({ status := 200, body := "" }, st)
  else if req.method = "GET" then HandleGetPosts st
  else if req.method = "POST" then HandleCreatePost req.body st
  else ({ status := 405, body := methodNotAllowedMsg }, st)

/-- TakeAvailable mirrors juju/ratelimit's Bucket.TakeAvailable: take
up to count of the currently available tokens, returning how many were
taken and the tokens that remain. Refill is driven by the wall clock
between requests; within the bursts considered here no refill occurs,
so the token count only decreases. -/
def TakeAvailable (count : Nat) (tokens : Nat) : Nat × Nat :=
  (min count tokens, tokens - min count tokens)

/-- Bucket capacity fixed in main: capacity := int64(2); the bucket of
NewBucketWithRate starts full. (The refill rate, 2.0 tokens per
second, plays no part in a burst.) -/
def bucketCapacity : Nat := 2

/-- RateLimiterMiddleware mirrors middleware.RateLimiterMiddleware
wrapped around HandlePosts as main wires it: if TakeAvailable(1)
returns 0 the request is answered 429 with a JSON error and the
wrapped handler never runs; otherwise a token has been consumed and
the wrapped handler serves the request. -/
def RateLimiterMiddleware (req : Request) (tokens : Nat) (st : ServerState) :
    Response × Nat × ServerState :=
  let taken := (TakeAvailable 1 tokens).1
  let rest := (TakeAvailable 1 tokens).2
  if taken = 0 then
    ({ status := 429, body := tooManyRequestsMsg }, rest, st)
  else
    let r := HandlePosts req st
    (r.1, rest, r.2)

/-- Serve a burst of requests through the rate-limited /posts endpoint,
threading the bucket and the store state; no refill happens during the
burst. -/
def processBurst : List Request → Nat → ServerState →
    List Response × Nat × ServerState
  | [], tokens, st => ([], tokens, st)
  | r :: rs, tokens, st =>
      let step := RateLimiterMiddleware r tokens st
      let rest := processBurst rs step.2.1 step.2.2
      (step.1 :: rest.1, rest.2.1, rest.2.2)

/-- Serve a sequence of requests directly by HandlePosts, with no rate
limiter in front; used to state what the admitted part of a burst
does. -/
def processPlain : List Request → ServerState → List Response × ServerState
  | [], st => ([], st)
  | r :: rs, st =>
      let step := HandlePosts r st
      let rest := processPlain rs step.2
      (step.1 :: rest.1, rest.2)

/-- Run the sqlite-backed repository Create over a list of posts in
order, stopping at the first failure; models a sequence of successful
POST requests hitting the durable store. -/
def createAll : List Post → List Post → Option (List Post)
  | [], rows => some rows
  | p :: ps, rows =>
      match Create p rows with
      | Except.ok rows1 => createAll ps rows1
      | Except.error _ => none

/-- Append of the in-memory variant's handleCreatePost:
posts = append(posts, newPost) under the write lock. -/
def memCreate (p : Post) (posts : List Post) : List Post := posts ++ [p]

/-- Listing of the in-memory variant's handleGetPosts: the posts slice
is encoded as it stands, in append order. -/
def memGetPosts (posts : List Post) : List Post := posts

theorem CreatePost_invalid {title content : String} {st : ServerState}
    (h : Sanitize title = "" ∨ Sanitize content = "") :
    CreatePost title content st =
      (Except.error ServiceErr.invalidPost, { st with nonce := st.nonce + 1 }) := by
  unfold CreatePost
  simp only [if_pos h]

theorem CreatePost_ok {title content : String} {st : ServerState}
    (h1 : ¬(Sanitize title = "" ∨ Sanitize content = ""))
    (h2 : st.db.any (fun q => q.id = genId st.nonce) = false) :
    CreatePost title content st =
      (Except.ok { id := genId st.nonce, title := Sanitize title,
                   content := Sanitize content },
       { db := st.db ++ [{ id := genId st.nonce, title := Sanitize title,
                           content := Sanitize content }],
         nonce := st.nonce + 1,
         trace := st.trace ++ [StoreOp.opInsert
           { id := genId st.nonce, title := Sanitize title,
             content := Sanitize content }] }) := by
  unfold CreatePost Create
  simp only [if_neg h1, h2, if_neg Bool.false_ne_true]

theorem CreatePost_dup {title content : String} {st : ServerState}
    (h1 : ¬(Sanitize title = "" ∨ Sanitize content = ""))
    (h2 : st.db.any (fun q => q.id = genId st.nonce) = true) :
    CreatePost title content st =
      (Except.error (ServiceErr.storage StoreErr.duplicateId),
       { st with nonce := st.nonce + 1,
                 trace := st.trace ++ [StoreOp.opInsert
                   { id := genId st.nonce, title := Sanitize title,
                     content := Sanitize content }] }) := by
  unfold CreatePost Create
  simp only [if_neg h1, h2, if_true]

theorem HandlePosts_OPTIONS (b : Body) (st : ServerState) :
    HandlePosts { method := "OPTIONS", body := b } st =
      ({ status := 200, body := "" }, st) := rfl

theorem HandlePosts_GET (b : Body) (st : ServerState) :
    HandlePosts { method := "GET", body := b } st = HandleGetPosts st := rfl

theorem HandlePosts_POST (b : Body) (st : ServerState) :
    HandlePosts { method := "POST", body := b } st = HandleCreatePost b st := rfl

/-- C1 (counterexample): a POST body that decodes to an empty title is
rejected by the service with the validation error, yet the handler
answers 500, not the 400 the claim states. -/
theorem C1_counterexample :
    (CreatePost "" "x" initialState).1 = Except.error ServiceErr.invalidPost ∧
    (HandlePosts { method := "POST", body := Body.ok none "" "x" }
        initialState).1.status = 500 ∧
    (HandlePosts { method := "POST", body := Body.ok none "" "x" }
        initialState).1.status ≠ 400 :=
  ⟨rfl, rfl, by decide⟩

/-- C1 (amended): for every POST request whose body decodes but whose
sanitized title or sanitized content is empty, createPost rejects the
request with the validation error and leaves the store unchanged, and
the HTTP handler responds with status 500 and the generic JSON error
object (the handler maps every service error, validation included, to
500 rather than 400). -/
theorem C1_validation_gives_500 (cid : Option String) (title content : String)
    (st : ServerState) (h : Sanitize title = "" ∨ Sanitize content = "") :
    (CreatePost title content st).1 = Except.error ServiceErr.invalidPost ∧
    (CreatePost title content st).2.db = st.db ∧
    (HandlePosts { method := "POST", body := Body.ok cid title content } st).1 =
      { status := 500, body := internalErrorMsg } := by
  refine ⟨?_, ?_, ?_⟩
  · rw [CreatePost_invalid h]
  · rw [CreatePost_invalid h]
  · rw [HandlePosts_POST]
    unfold HandleCreatePost
    dsimp only [decodeBody]
    rw [CreatePost_invalid h]

theorem C1_validation_gives_500_witness :
    (CreatePost "" "y" initialState).1 = Except.error ServiceErr.invalidPost ∧
    (CreatePost "" "y" initialState).2.db = initialState.db ∧
    (HandlePosts { method := "POST", body := Body.ok none "" "y" }
        initialState).1 = { status := 500, body := internalErrorMsg } :=
  C1_validation_gives_500 none "" "y" initialState (Or.inl (by decide))

/-- C4: on a store with zero posts the repository query and the service
listing return the empty sequence, not an error; the empty sequence
encodes as the JSON array text "[]" (never null, since the handler
builds a non-nil empty slice); and a GET answered from the empty store
has status 200 with exactly that array as its body. -/
theorem C4_empty_store_lists_empty_array (nonce : Nat) (trace : List StoreOp)
    (b : Body) :
    GetAll ([] : List Post) = Except.ok [] ∧
    (GetAllPosts { db := [], nonce := nonce, trace := trace }).1 =
      Except.ok [] ∧
    encodePostsJSON [] = "[]" ∧
    (HandlePosts { method := "GET", body := b }
        { db := [], nonce := nonce, trace := trace }).1.status = 200 ∧
    (HandlePosts { method := "GET", body := b }
        { db := [], nonce := nonce, trace := trace }).1.body = "[]" ++ "\n" := by
  refine ⟨rfl, rfl, by decide, rfl, ?_⟩
  show encodePostsJSON [] ++ "\n" = "[]" ++ "\n"
  decide

/-- C7: Sanitize is a pure total function whose output never contains a
raw markup character: no occurrence of the angle brackets or of either
quote survives escaping, and every ampersand of the output is the
escape marker of exactly one special character of the input (so raw
ampersands of the input have all been rewritten); and createPost stores
the sanitized title and sanitized content, never the raw fields. -/
theorem C7_sanitize_escapes_specials (s title content : String)
    (st : ServerState) :
    ('<' ∉ (Sanitize s).data ∧ '>' ∉ (Sanitize s).data ∧
      quoteChar ∉ (Sanitize s).data ∧ aposChar ∉ (Sanitize s).data) ∧
    (Sanitize s).data.count '&' = s.data.countP isSpecialChar ∧
    ((∃ e, (CreatePost title content st).1 = Except.error e) ∨
      (CreatePost title content st).1 =
        Except.ok { id := genId st.nonce, title := Sanitize title,
                    content := Sanitize content }) ∧
    ((CreatePost title content st).2.db = st.db ∨
      (CreatePost title content st).2.db =
        st.db ++ [{ id := genId st.nonce, title := Sanitize title,
                    content := Sanitize content }]) := by
  refine ⟨⟨escapeList_no_lt s.data, escapeList_no_gt s.data,
    escapeList_no_quote s.data, escapeList_no_apos s.data⟩,
    escapeList_count_amp s.data, ?_, ?_⟩
  · by_cases h : Sanitize title = "" ∨ Sanitize content = ""
    · left; rw [CreatePost_invalid h]; exact ⟨_, rfl⟩
    · cases h2 : st.db.any (fun q => q.id = genId st.nonce) with
      | false => right; rw [CreatePost_ok h h2]
      | true => left; rw [CreatePost_dup h h2]; exact ⟨_, rfl⟩
  · by_cases h : Sanitize title = "" ∨ Sanitize content = ""
    · left; rw [CreatePost_invalid h]
    · cases h2 : st.db.any (fun q => q.id = genId st.nonce) with
      | false => right; rw [CreatePost_ok h h2]
      | true => left; rw [CreatePost_dup h h2]

/-- C9: posts are immutable once created. Every request served through
the rate-limited /posts endpoint leaves the stored rows either exactly
as they were or extended by a single new row at the end, so previously
stored posts keep their id, title and content and none is ever
removed. -/
theorem C9_posts_immutable (req : Request) (tokens : Nat) (st : ServerState) :
    (RateLimiterMiddleware req tokens st).2.2.db = st.db ∨
      ∃ p, (RateLimiterMiddleware req tokens st).2.2.db = st.db ++ [p] := by
  unfold RateLimiterMiddleware
  dsimp only
  split
  · left; rfl
  · show (HandlePosts req st).2.db = st.db ∨
      ∃ p, (HandlePosts req st).2.db = st.db ++ [p]
    unfold HandlePosts
    split
    · left; rfl
    split
    · unfold HandleGetPosts GetAllPosts GetAll
      left; rfl
    split
    · unfold HandleCreatePost
      cases hb : decodeBody req.body with
      | none => simp [hb]
      | some tc =>
        simp only [hb]
        by_cases hval : Sanitize tc.1 = "" ∨ Sanitize tc.2 = ""
        · rw [CreatePost_invalid hval]; left; rfl
        · cases h2 : st.db.any (fun q => q.id = genId st.nonce) with
          | false => rw [CreatePost_ok hval h2]; right; exact ⟨_, rfl⟩
          | true => rw [CreatePost_dup hval h2]; left; rfl
    · left; rfl

/-- C10: creation is atomic on failure. A body that fails to decode is
answered 400 with the whole state untouched, and a decoded body whose
sanitized title or content is empty leaves the stored rows and the
store-operation trace unchanged: no post is added on either failure
path. -/
theorem C10_failed_create_leaves_store (st : ServerState)
    (cid : Option String) (t c : String) :
    HandleCreatePost Body.malformed st =
      ({ status := 400, body := invalidBodyMsg }, st) ∧
    (Sanitize t = "" ∨ Sanitize c = "" →
      (HandleCreatePost (Body.ok cid t c) st).2.db = st.db ∧
      (HandleCreatePost (Body.ok cid t c) st).2.trace = st.trace) := by
  refine ⟨rfl, fun h => ?_⟩
  unfold HandleCreatePost
  dsimp only [decodeBody]
  rw [CreatePost_invalid h]
  exact ⟨rfl, rfl⟩

theorem C10_failed_create_leaves_store_witness :
    HandleCreatePost Body.malformed initialState =
      ({ status := 400, body := invalidBodyMsg }, initialState) ∧
    ((HandleCreatePost (Body.ok none "" "x") initialState).2.db =
        initialState.db ∧
      (HandleCreatePost (Body.ok none "" "x") initialState).2.trace =
        initialState.trace) :=
  ⟨(C10_failed_create_leaves_store initialState none "" "x").1,
   (C10_failed_create_leaves_store initialState none "" "x").2
     (Or.inl (by decide))⟩

/-- C2 (counterexample): the rate limiter is wired around the whole
/posts handler, so a GET consumes a token (2 tokens become 1), and in a
burst of two POSTs followed by a GET from the full bucket the GET is
rejected with 429 — contradicting the claim that GET never sees 429 and
that only POST consumes tokens. -/
theorem C2_counterexample :
    (RateLimiterMiddleware { method := "GET", body := Body.malformed } 2
        initialState).2.1 = 1 ∧
    (processBurst
        [{ method := "POST", body := Body.ok none "T1" "C1" },
         { method := "POST", body := Body.ok none "T2" "C2" },
         { method := "GET", body := Body.malformed }]
        bucketCapacity initialState).1.getLast? =
      some { status := 429, body := tooManyRequestsMsg } :=
  ⟨rfl, rfl⟩

/-- C2 (amended): the rate-limiter gate is consulted for every request
to /posts regardless of method: when the bucket is empty any request is
answered 429 with the JSON error and the handler never runs, and when a
token is available it is consumed (whatever the method) and the wrapped
handler serves the request. -/
theorem C2_limiter_gates_every_method (req : Request) (tokens : Nat)
    (st : ServerState) :
    (tokens = 0 →
      RateLimiterMiddleware req tokens st =
        ({ status := 429, body := tooManyRequestsMsg }, 0, st)) ∧
    (0 < tokens →
      (RateLimiterMiddleware req tokens st).2.1 = tokens - 1 ∧
      (RateLimiterMiddleware req tokens st).1 = (HandlePosts req st).1 ∧
      (RateLimiterMiddleware req tokens st).2.2 = (HandlePosts req st).2) := by
  constructor
  · intro h; subst h; rfl
  · intro h
    have hmin : min 1 tokens = 1 := by omega
    unfold RateLimiterMiddleware TakeAvailable
    simp [hmin]

theorem C2_limiter_gates_every_method_witness :
    RateLimiterMiddleware { method := "OPTIONS", body := Body.malformed } 0
        initialState =
      ({ status := 429, body := tooManyRequestsMsg }, 0, initialState) ∧
    (RateLimiterMiddleware { method := "OPTIONS", body := Body.malformed } 2
        initialState).2.1 = 2 - 1 :=
  ⟨(C2_limiter_gates_every_method
      { method := "OPTIONS", body := Body.malformed } 0 initialState).1 rfl,
   ((C2_limiter_gates_every_method
      { method := "OPTIONS", body := Body.malformed } 2 initialState).2
      (by decide)).1⟩

/-- The abstraction of reachability used for identifier freshness:
every stored post carries an identifier drawn from the supply strictly
before the current counter. It holds of the initial state and is
preserved by every request. -/
def IdsFromSupply (st : ServerState) : Prop :=
  ∀ p ∈ st.db, ∃ k, k < st.nonce ∧ p.id = genId k

/-- C3: on any state whose stored identifiers all come from earlier
draws of the supply, a createPost with non-empty sanitized fields
succeeds and returns a post whose id is the server's fresh draw:
non-empty, absent from every previously created post, and — since the
decoded input struct has no id field — the same whatever id value the
client put in the request body. The supply invariant is preserved. -/
theorem C3_created_id_fresh_and_server_generated (st : ServerState)
    (title content : String) (cid cid2 : Option String)
    (hinv : IdsFromSupply st)
    (ht : Sanitize title ≠ "") (hc : Sanitize content ≠ "") :
    ∃ post st1,
      CreatePost title content st = (Except.ok post, st1) ∧
      post.id = genId st.nonce ∧
      post.id ≠ "" ∧
      post.id ∉ st.db.map Post.id ∧
      IdsFromSupply st1 ∧
      HandleCreatePost (Body.ok cid title content) st =
        HandleCreatePost (Body.ok cid2 title content) st := by
  have hfresh : genId st.nonce ∉ st.db.map Post.id := by
    intro hmem
    rcases List.mem_map.mp hmem with ⟨p, hp, hid⟩
    rcases hinv p hp with ⟨k, hk, hpk⟩
    have : k = st.nonce := genId_injective k st.nonce (by rw [← hpk, hid])
    omega
  have hany : st.db.any (fun q => q.id = genId st.nonce) = false := by
    rw [List.any_eq_false]
    intro q hq hqe
    exact hfresh (List.mem_map.mpr ⟨q, hq, of_decide_eq_true hqe⟩)
  have hval : ¬(Sanitize title = "" ∨ Sanitize content = "") := by
    tauto
  refine ⟨_, _, CreatePost_ok hval hany, rfl, genId_ne_empty _, hfresh, ?_, rfl⟩
  intro p hp
  rcases List.mem_append.mp hp with hmem | hmem
  · rcases hinv p hmem with ⟨k, hk, hpk⟩
    exact ⟨k, by show k < st.nonce + 1; omega, hpk⟩
  · rcases List.mem_singleton.mp hmem with rfl
    exact ⟨st.nonce, by show st.nonce < st.nonce + 1; omega, rfl⟩

theorem C3_created_id_fresh_and_server_generated_witness :
    ∃ post st1,
      CreatePost "T" "C" initialState = (Except.ok post, st1) ∧
      post.id = genId initialState.nonce ∧
      post.id ≠ "" ∧
      post.id ∉ initialState.db.map Post.id ∧
      IdsFromSupply st1 ∧
      HandleCreatePost (Body.ok none "T" "C") initialState =
        HandleCreatePost (Body.ok (some "client-chosen-id") "T" "C")
          initialState :=
  C3_created_id_fresh_and_server_generated initialState "T" "C" none
    (some "client-chosen-id")
    (by intro p hp; simp [initialState] at hp) (by decide) (by decide)

theorem memCreateAll_eq (ps acc : List Post) :
    List.foldl (fun acc p => memCreate p acc) acc ps = acc ++ ps := by
  induction ps generalizing acc with
  | nil => simp
  | cons p ps ih =>
    rw [List.foldl_cons, ih]
    simp [memCreate]

theorem createAll_ok : ∀ (ps rows : List Post),
    ((rows ++ ps).map Post.id).Nodup → createAll ps rows = some (rows ++ ps) := by
  intro ps
  induction ps with
  | nil => intro rows h; simp [createAll]
  | cons p ps ih =>
    intro rows h
    have hdisj : p.id ∉ rows.map Post.id := by
      rw [List.map_append] at h
      have hd := List.disjoint_of_nodup_append h
      intro hmem
      exact hd hmem (by simp)
    have hany : rows.any (fun q => q.id = p.id) = false := by
      rw [List.any_eq_false]
      intro q hq hqe
      exact hdisj (List.mem_map.mpr ⟨q, hq, of_decide_eq_true hqe⟩)
    unfold createAll Create
    simp only [hany, if_neg Bool.false_ne_true]
    have hre : rows ++ p :: ps = (rows ++ [p]) ++ ps := by simp
    rw [ih (rows ++ [p]) (by rw [← hre]; exact h)]
    rw [← hre]

/-- C5: for every sequence of created posts with distinct identifiers,
inserting them in order into the sqlite-backed store yields the rows in
insertion order, and GetAll (ORDER BY rowid DESC) lists them
most-recently-created first, i.e. reversed; the in-memory variant
appends each post and lists the slice as it stands, i.e. in simple
append order. -/
theorem C5_listing_order (ps : List Post) (h : (ps.map Post.id).Nodup) :
    createAll ps [] = some ps ∧
    GetAll ps = Except.ok ps.reverse ∧
    memGetPosts (List.foldl (fun acc p => memCreate p acc) [] ps) = ps := by
  refine ⟨?_, rfl, by simp [memCreateAll_eq, memGetPosts]⟩
  have := createAll_ok ps [] (by simpa using h)
  simpa using this

/-- Two distinct posts used to instantiate the ordering theorem. -/
def twoPosts : List Post :=
  [{ id := "a", title := "t1", content := "c1" },
   { id := "b", title := "t2", content := "c2" }]

theorem C5_listing_order_witness :
    createAll twoPosts [] = some twoPosts ∧
    GetAll twoPosts = Except.ok twoPosts.reverse ∧
    memGetPosts (List.foldl (fun acc p => memCreate p acc) [] twoPosts) =
      twoPosts :=
  C5_listing_order twoPosts (by decide)

/-- C6 (counterexample): because the rate limiter wraps the whole
/posts handler, an OPTIONS request arriving after the burst has drained
the bucket is answered 429, not the claimed unconditional 200 with
empty body. -/
theorem C6_counterexample :
    (processBurst
        [{ method := "POST", body := Body.ok none "T1" "C1" },
         { method := "POST", body := Body.ok none "T2" "C2" },
         { method := "OPTIONS", body := Body.malformed }]
        bucketCapacity initialState).1.getLast? =
      some { status := 429, body := tooManyRequestsMsg } ∧
    (processBurst
        [{ method := "POST", body := Body.ok none "T1" "C1" },
         { method := "POST", body := Body.ok none "T2" "C2" },
         { method := "OPTIONS", body := Body.malformed }]
        bucketCapacity initialState).1.getLast? ≠
      some { status := 200, body := "" } :=
  ⟨rfl, by decide⟩

/-- C6 (amended): an OPTIONS request to /posts never touches the store
— the server state, its rows and its operation trace included, is
returned unchanged whatever the bucket holds — and whenever the rate
limiter admits it (a token is available) the response is 200 with an
empty body; with an empty bucket the limiter answers 429 instead. -/
theorem C6_options_terminal_when_admitted (b : Body) (tokens : Nat)
    (st : ServerState) :
    (RateLimiterMiddleware { method := "OPTIONS", body := b } tokens st).2.2 =
      st ∧
    (0 < tokens →
      (RateLimiterMiddleware { method := "OPTIONS", body := b } tokens st).1 =
        { status := 200, body := "" }) := by
  constructor
  · unfold RateLimiterMiddleware
    dsimp only
    split
    · rfl
    · show (HandlePosts { method := "OPTIONS", body := b } st).2 = st
      rw [HandlePosts_OPTIONS]
  · intro h
    have hmin : min 1 tokens = 1 := by omega
    unfold RateLimiterMiddleware TakeAvailable
    simp [hmin, HandlePosts_OPTIONS]

theorem C6_options_terminal_when_admitted_witness :
    (RateLimiterMiddleware { method := "OPTIONS", body := Body.malformed } 1
        initialState).2.2 = initialState ∧
    (RateLimiterMiddleware { method := "OPTIONS", body := Body.malformed } 1
        initialState).1 = { status := 200, body := "" } :=
  ⟨(C6_options_terminal_when_admitted Body.malformed 1 initialState).1,
   (C6_options_terminal_when_admitted Body.malformed 1 initialState).2
     (by decide)⟩

theorem processBurst_enough (rs : List Request) (tokens : Nat)
    (st : ServerState) (h : rs.length ≤ tokens) :
    processBurst rs tokens st =
      ((processPlain rs st).1, tokens - rs.length, (processPlain rs st).2) := by
  induction rs generalizing tokens st with
  | nil => simp [processBurst, processPlain]
  | cons r rs ih =>
    have hlen : rs.length + 1 ≤ tokens := by simpa using h
    have hmin : min 1 tokens = 1 := by omega
    unfold processBurst processPlain RateLimiterMiddleware TakeAvailable
    simp only [hmin, if_neg (by decide : ¬(1 : Nat) = 0)]
    rw [ih (tokens - 1) (HandlePosts r st).2 (by omega)]
    simp [Nat.sub_sub, Nat.add_comm]

theorem processBurst_empty_bucket (rs : List Request) (st : ServerState) :
    processBurst rs 0 st =
      (List.replicate rs.length { status := 429, body := tooManyRequestsMsg },
       0, st) := by
  induction rs with
  | nil => rfl
  | cons r rs ih =>
    unfold processBurst RateLimiterMiddleware TakeAvailable
    simp [ih, List.replicate_succ]

theorem processBurst_append (xs ys : List Request) (tokens : Nat)
    (st : ServerState) :
    processBurst (xs ++ ys) tokens st =
      ((processBurst xs tokens st).1 ++
        (processBurst ys (processBurst xs tokens st).2.1
          (processBurst xs tokens st).2.2).1,
       (processBurst ys (processBurst xs tokens st).2.1
          (processBurst xs tokens st).2.2).2.1,
       (processBurst ys (processBurst xs tokens st).2.1
          (processBurst xs tokens st).2.2).2.2) := by
  induction xs generalizing tokens st with
  | nil => simp [processBurst]
  | cons x xs ih => simp [processBurst, ih]

/-- C8: starting from the full bucket (capacity 2, as configured in
main) with no refill during the burst, a burst of mutating requests
longer than the capacity is served as follows: the first capacity-many
requests are admitted and handled exactly as the bare handler would
handle them, and every later request is answered 429 with the JSON
error while the wrapped handler is never invoked — the final server
state is untouched by the rejected tail. -/
theorem C8_burst_over_capacity_rejected (rs : List Request)
    (st : ServerState) (hlen : bucketCapacity < rs.length)
    (hpost : ∀ r ∈ rs, r.method = "POST") :
    processBurst rs bucketCapacity st =
      ((processPlain (rs.take bucketCapacity) st).1 ++
        List.replicate (rs.length - bucketCapacity)
          { status := 429, body := tooManyRequestsMsg },
       0,
       (processPlain (rs.take bucketCapacity) st).2) := by
  have htake : (rs.take bucketCapacity).length = bucketCapacity := by
    simp [List.length_take]
    omega
  conv_lhs => rw [← List.take_append_drop bucketCapacity rs]
  rw [processBurst_append]
  rw [processBurst_enough _ _ _ (le_of_eq htake)]
  rw [htake]
  simp only [Nat.sub_self]
  rw [processBurst_empty_bucket]
  simp [List.length_drop]

/-- A burst of three valid POST requests, one more than the bucket
capacity. -/
def threePostBurst : List Request :=
  [{ method := "POST", body := Body.ok none "T1" "C1" },
   { method := "POST", body := Body.ok none "T2" "C2" },
   { method := "POST", body := Body.ok none "T3" "C3" }]

theorem C8_burst_over_capacity_rejected_witness :
    processBurst threePostBurst bucketCapacity initialState =
      ((processPlain (threePostBurst.take bucketCapacity) initialState).1 ++
        List.replicate (threePostBurst.length - bucketCapacity)
          { status := 429, body := tooManyRequestsMsg },
       0,
       (processPlain (threePostBurst.take bucketCapacity) initialState).2) :=
  C8_burst_over_capacity_rejected threePostBurst initialState (by decide)
    (by decide)
